import Mathlib

/-!
Shallow embedding of the virtio-net device data plane from
`src/devices/src/virtio/net.rs` (firecracker), together with proofs about
the rate-limited RX/TX paths, interrupt coalescing, config space access
and activation.

External collaborators of `net.rs` (the token-bucket `RateLimiter`, the
virtqueue primitive, the guest memory accessor, the MMDS network stack and
the TAP device) are not part of the repository sources; they are modelled
from the specification's interface contracts and marked as such in their
doc comments.  Everything else is translated directly from `net.rs`.

Ghost observation fields (`tapFlags`, `deliveryAttempts`,
`interruptEvtWrites`, the TX step log) record externally visible actions
(TAP reads, delivery attempts, eventfd writes, iterator yields) so that
temporal claims can be stated; they never influence control flow.
-/

/-- Token kinds of the rate limiter (`rate_limiter::TokenType`). -/
inductive TokenType
  | Bytes
  | Ops
deriving Repr, DecidableEq

/-- Modelled from the spec: the token-bucket `RateLimiter` primitive
(`rate_limiter` crate, not under `src/`).  Per the interface contract,
`consume(n, kind)` returns `false` (leaving the budget untouched) when the
budget is insufficient, and the limiter is then blocked with a timer
armed; `manual_replenish(n, kind)` adds back `n` tokens;
`event_handler()` acknowledges the timer, failing when the limiter is not
blocked.  The time-driven replenishment is outside the model. -/
structure RateLimiter where
  ops : Nat
  bytes : Nat
  blocked : Bool
deriving Repr, DecidableEq

def RateLimiter.consume (rl : RateLimiter) (n : Nat) (t : TokenType) :
    Bool × RateLimiter :=
  match t with
  | TokenType.Ops =>
      if n ≤ rl.ops then (true, { rl with ops := rl.ops - n })
      else (false, { rl with blocked := true })
  | TokenType.Bytes =>
      if n ≤ rl.bytes then (true, { rl with bytes := rl.bytes - n })
      else (false, { rl with blocked := true })

def RateLimiter.manual_replenish (rl : RateLimiter) (n : Nat) (t : TokenType) :
    RateLimiter :=
  match t with
  | TokenType.Ops => { rl with ops := rl.ops + n }
  | TokenType.Bytes => { rl with bytes := rl.bytes + n }

def RateLimiter.is_blocked (rl : RateLimiter) : Bool := rl.blocked

def RateLimiter.event_handler (rl : RateLimiter) : Bool × RateLimiter :=
  if rl.blocked then (true, { rl with blocked := false }) else (false, rl)

/-- Modelled from the spec: the guest memory accessor
(`memory_model::GuestMemory`, not under `src/`): a single region of
`size` bytes; slice reads/writes may return short counts at the end of
the region and fail on an address outside it. -/
structure GuestMemory where
  size : Nat
  data : Nat → Nat

/-- `GuestMemory::write_slice_at_addr`: returns the number of bytes
written and the updated memory, or `none` on an invalid address. -/
def GuestMemory.write_slice_at_addr (mem : GuestMemory) (slice : List Nat)
    (addr : Nat) : Option (Nat × GuestMemory) :=
  if mem.size ≤ addr then none
  else
    let n := min slice.length (mem.size - addr)
    some (n, { mem with
      data := (fun i => if addr ≤ i ∧ i < addr + n then slice.getD (i - addr) 0
        else mem.data i) })

/-- `GuestMemory::read_slice_at_addr`: returns the number of bytes read and
the bytes, or `none` on an invalid address. -/
def GuestMemory.read_slice_at_addr (mem : GuestMemory) (len : Nat)
    (addr : Nat) : Option (Nat × List Nat) :=
  if mem.size ≤ addr then none
  else
    let n := min len (mem.size - addr)
    some (n, (List.range n).map (fun j => mem.data (addr + j)))

/-- One descriptor of a chain (`DescriptorChain` node): guest address,
length, and the device-writable flag. -/
structure Desc where
  addr : Nat
  len : Nat
  writeOnly : Bool
deriving Repr, DecidableEq

/-- A descriptor chain as yielded by queue iteration: the head index and
the linked descriptors in order. -/
structure DescChain where
  headIndex : Nat
  descs : List Desc
deriving Repr, DecidableEq

/-- Modelled from the spec: the virtqueue primitive
(`devices/src/virtio/queue.rs`, not under `src/`).  `chains` is the
sequence of available descriptor chains published by the guest, `pos` the
iterator position (`next_avail`), `used` the used ring entries
`(head_index, len)` in the order they were added. -/
structure VQueue where
  chains : List DescChain
  pos : Nat
  used : List (Nat × Nat)
deriving Repr, DecidableEq

/-- `queue.iter(mem).next()`: yield the chain at the current position and
advance. -/
def VQueue.next (q : VQueue) : Option (DescChain × VQueue) :=
  match q.chains.get? q.pos with
  | none => none
  | some c => some (c, { q with pos := q.pos + 1 })

/-- `queue.add_used(mem, head_index, len)`. -/
def VQueue.add_used (q : VQueue) (headIndex len : Nat) : VQueue :=
  { q with used := q.used ++ [(headIndex, len)] }

/-- `queue.go_to_previous_position()`. -/
def VQueue.go_to_previous_position (q : VQueue) : VQueue :=
  { q with pos := q.pos - 1 }

/-- Modelled from the spec: the MMDS network stack
(`dumbo::ns::MmdsNetworkStack`, not under `src/`).  `pending` holds the
response frames it can produce via `write_next_frame`; `accepts` is the
`detour_frame` predicate deciding whether a TX frame is addressed to the
metadata service. -/
structure Mmds where
  pending : List (List Nat)
  accepts : List Nat → Bool

/-- `MmdsNetworkStack::write_next_frame`: pop the next pending response
payload, if any. -/
def Mmds.write_next_frame (ns : Mmds) : Option (List Nat × Mmds) :=
  match ns.pending with
  | [] => none
  | p :: rest => some (p, { ns with pending := rest })

/-- One readiness outcome of the non-blocking TAP fd: a frame, or an I/O
error (`eagain = true` for `EAGAIN`). -/
inductive TapEvent
  | frame (bytes : List Nat)
  | err (eagain : Bool)
deriving Repr, DecidableEq

/-- `vnet_hdr_len()`: `size_of::<virtio_net_hdr_v1>()` = 12 bytes. -/
def vnet_hdr_len : Nat := 12

/-- Write `p` into the buffer starting at `off` (the effect of handing
`frame_bytes_from_buf_mut(buf)` to the MMDS stack with `off = 12`). -/
def write_payload_at (buf : Nat → Nat) (off : Nat) (p : List Nat) :
    Nat → Nat :=
  fun i => if off ≤ i ∧ i < off + p.length then p.getD (i - off) 0 else buf i

/-- `init_vnet_hdr`: zero the first 12 bytes of the buffer. -/
def init_vnet_hdr (buf : Nat → Nat) : Nat → Nat :=
  fun i => if i < vnet_hdr_len then 0 else buf i

/-- The `METRICS.net` / `METRICS.mmds` counters used by `net.rs`. -/
structure Metrics where
  rx_fails : Nat
  tx_fails : Nat
  event_fails : Nat
  rx_bytes_count : Nat
  rx_packets_count : Nat
  tx_bytes_count : Nat
  tx_packets_count : Nat
  mmds_rx_accepted : Nat
  mmds_tx_frames : Nat
  mmds_tx_bytes : Nat
deriving Repr, DecidableEq

/-- `RxVirtio`: the RX-side state of the handler. -/
structure RxVirtio where
  rate_limiter : RateLimiter
  deferred_frame : Bool
  deferred_irqs : Bool
  queue : VQueue
  bytes_read : Nat
  frame_buf : Nat → Nat

/-- `TxVirtio`: the TX-side state of the handler. -/
structure TxVirtio where
  rate_limiter : RateLimiter
  queue : VQueue
  frame_buf : Nat → Nat

/-- `NetEpollHandler`, with the TAP input stream (`tapIn`), the frames
written to TAP (`tapOut`), and ghost observation fields: the number of
interrupt-eventfd writes, the value of `deferred_frame` at each TAP read
(`tapFlags`), and the number of `rate_limited_rx_single_frame` calls
(`deliveryAttempts`). -/
structure NetHandler where
  rx : RxVirtio
  tx : TxVirtio
  mem : GuestMemory
  mmds_ns : Option Mmds
  tapIn : List TapEvent
  tapOut : List (List Nat)
  interrupt_status : Nat
  interruptEvtWrites : Nat
  metrics : Metrics
  tapFlags : List Bool
  deliveryAttempts : Nat

/-- `signal_used_queue`: OR the VRING bit into the interrupt status and
write the interrupt eventfd. -/
def signal_used_queue (h : NetHandler) : NetHandler :=
  { h with interrupt_status := h.interrupt_status ||| 1,
           interruptEvtWrites := h.interruptEvtWrites + 1 }

/-- `read_tap`: read one frame from the non-blocking TAP fd into
`rx.frame_buf`.  An empty input stream behaves as `EAGAIN`.  The ghost
field `tapFlags` records `deferred_frame` at the time of the read. -/
def read_tap (h : NetHandler) : Except Bool Nat × NetHandler :=
  let h0 := { h with tapFlags := h.tapFlags ++ [h.rx.deferred_frame] }
  match h0.tapIn with
  | [] => (Except.error true, h0)
  | TapEvent.err eagain :: rest => (Except.error eagain, { h0 with tapIn := rest })
  | TapEvent.frame bs :: rest =>
      (Except.ok bs.length,
       { h0 with tapIn := rest,
                 rx := { h0.rx with frame_buf := (fun i =>
                   if i < bs.length then bs.getD i 0 else h0.rx.frame_buf i) } })

/-- `read_from_mmds_or_tap`: poll the MMDS stack first; if it produces a
payload, place it after the vnet header, zero the header and return
`12 + len`; otherwise read from TAP. -/
def read_from_mmds_or_tap (h : NetHandler) : Except Bool Nat × NetHandler :=
  match h.mmds_ns with
  | some ns =>
      match ns.write_next_frame with
      | some (p, ns') =>
          (Except.ok (vnet_hdr_len + p.length),
           { h with mmds_ns := some ns',
                    rx := { h.rx with frame_buf :=
                      (init_vnet_hdr (write_payload_at h.rx.frame_buf vnet_hdr_len p)) },
                    metrics := { h.metrics with
                      mmds_tx_frames := h.metrics.mmds_tx_frames + 1,
                      mmds_tx_bytes := h.metrics.mmds_tx_bytes + p.length } })
      | none => read_tap h
  | none => read_tap h

/-- The descriptor-chain walk of `rx_single_frame`: copy
`frame_buf[0..bytes_read]` across the chain.  Returns the write count, the
updated memory, and the `rx_fails` delta (1 when a guest write failed or
the chain was exhausted before `bytes_read` bytes were delivered). -/
def rx_chain_write (frame_buf : Nat → Nat) (bytes_read : Nat) :
    List Desc → Nat → GuestMemory → Nat × GuestMemory × Nat
  | [], wc, mem => (wc, mem, 1)
  | d :: rest, wc, mem =>
      if d.writeOnly then
        let limit := min (wc + d.len) bytes_read
        let slice := (List.range (limit - wc)).map (fun j => frame_buf (wc + j))
        match mem.write_slice_at_addr slice d.addr with
        | none => (wc, mem, 1)
        | some (sz, mem') =>
            if bytes_read ≤ wc + sz then (wc + sz, mem', 0)
            else rx_chain_write frame_buf bytes_read rest (wc + sz) mem'
      else (wc, mem, 0)

/-- `rx_single_frame`: copy the staged frame into the next available RX
descriptor chain.  Returns `true` iff all `bytes_read` bytes were
delivered; the head is marked used with the (possibly partial) write count
whenever a chain was available, and `deferred_irqs` is set. -/
def rx_single_frame (h : NetHandler) : Bool × NetHandler :=
  match h.rx.queue.next with
  | none => (false, h)
  | some (chain, q1) =>
      let r := rx_chain_write h.rx.frame_buf h.rx.bytes_read chain.descs 0 h.mem
      let wc := r.1
      let q2 := q1.add_used chain.headIndex wc
      let success := h.rx.bytes_read ≤ wc
      let m1 := { h.metrics with rx_fails := h.metrics.rx_fails + r.2.2 }
      let m2 := if success then
          { m1 with rx_bytes_count := m1.rx_bytes_count + wc,
                    rx_packets_count := m1.rx_packets_count + 1 }
        else m1
      (success,
       { h with mem := r.2.1,
                metrics := m2,
                rx := { h.rx with queue := q2, deferred_irqs := true } })

/-- `rate_limited_rx_single_frame`: the two-step token consume around
`rx_single_frame`, with symmetric rollback on every failure branch.  The
ghost counter `deliveryAttempts` is bumped at entry. -/
def rate_limited_rx_single_frame (h0 : NetHandler) : Bool × NetHandler :=
  let h := { h0 with deliveryAttempts := h0.deliveryAttempts + 1 }
  let c1 := h.rx.rate_limiter.consume 1 TokenType.Ops
  if c1.1 then
    let h1 := { h with rx := { h.rx with rate_limiter := c1.2 } }
    let c2 := h1.rx.rate_limiter.consume h1.rx.bytes_read TokenType.Bytes
    if c2.1 then
      let h2 := { h1 with rx := { h1.rx with rate_limiter := c2.2 } }
      let r := rx_single_frame h2
      if r.1 then (true, r.2)
      else
        let rl := ((r.2.rx.rate_limiter.manual_replenish 1 TokenType.Ops).manual_replenish
          r.2.rx.bytes_read TokenType.Bytes)
        (false, { r.2 with rx := { r.2.rx with rate_limiter := rl } })
    else
      let rl := c2.2.manual_replenish 1 TokenType.Ops
      (false, { h1 with rx := { h1.rx with rate_limiter := rl } })
  else
    (false, { h with rx := { h.rx with rate_limiter := c1.2 } })

/-- Fuel bounding the `process_rx` drain loop: each successful read
consumes one MMDS pending frame or one TAP input item, so
`pending + tapIn + 1` iterations always reach a natural exit. -/
def rx_src_fuel (h : NetHandler) : Nat :=
  (match h.mmds_ns with
   | some ns => ns.pending.length
   | none => 0) + h.tapIn.length + 1

/-- The drain loop of `process_rx`: read frames and deliver them until a
read fails (EAGAIN or error) or a delivery fails (which stages the frame
as deferred). -/
def process_rx_loop : Nat → NetHandler → NetHandler
  | 0, h => h
  | Nat.succ fuel, h =>
      match read_from_mmds_or_tap h with
      | (Except.ok count, h1) =>
          let h2 := { h1 with rx := { h1.rx with bytes_read := count } }
          let r := rate_limited_rx_single_frame h2
          if r.1 then process_rx_loop fuel r.2
          else { r.2 with rx := { r.2.rx with deferred_frame := true } }
      | (Except.error eagain, h1) =>
          if eagain then h1
          else { h1 with metrics :=
            { h1.metrics with rx_fails := h1.metrics.rx_fails + 1 } }

/-- `process_rx`: drain the sources, then flush the coalesced interrupt if
`deferred_irqs` is set. -/
def process_rx (h : NetHandler) : NetHandler :=
  let h1 := process_rx_loop (rx_src_fuel h) h
  if h1.rx.deferred_irqs then
    signal_used_queue { h1 with rx := { h1.rx with deferred_irqs := false } }
  else h1

/-- `resume_rx`: retry the deferred frame; on success clear the flag and
drain further; on failure flush the coalesced interrupt if pending. -/
def resume_rx (h : NetHandler) : NetHandler :=
  if h.rx.deferred_frame then
    let r := rate_limited_rx_single_frame h
    if r.1 then
      process_rx { r.2 with rx := { r.2.rx with deferred_frame := false } }
    else if r.2.rx.deferred_irqs then
      signal_used_queue { r.2 with rx := { r.2.rx with deferred_irqs := false } }
    else r.2
  else h

/-- The readable prefix of a TX chain recorded into `tx.iovec`: `(addr,
len)` pairs up to the first write-only descriptor. -/
def tx_iovec (descs : List Desc) : List (Nat × Nat) :=
  (descs.takeWhile (fun d => !d.writeOnly)).map (fun d => (d.addr, d.len))

/-- The byte total of the readable prefix of a TX chain (the `read_count`
checked against the Bytes bucket). -/
def tx_read_count (c : DescChain) : Nat :=
  ((tx_iovec c.descs).map Prod.snd).sum

/-- The frame-assembly loop of `process_tx`: read each `(addr, len)` pair
from guest memory into `tx.frame_buf`, clipping to the buffer size.
Returns the accumulated `read_count`, the new buffer, and the `tx_fails`
delta (1 when a guest read failed, aborting assembly). -/
def tx_read_chain (mem : GuestMemory) :
    List (Nat × Nat) → Nat → (Nat → Nat) → Nat × (Nat → Nat) × Nat
  | [], rc, buf => (rc, buf, 0)
  | (addr, len) :: rest, rc, buf =>
      let limit := min (rc + len) 65562
      match mem.read_slice_at_addr (limit - rc) addr with
      | none => (rc, buf, 1)
      | some (sz, bytes) =>
          let buf' := fun i => if rc ≤ i ∧ i < rc + sz then bytes.getD (i - rc) 0 else buf i
          tx_read_chain mem rest (rc + sz) buf'

/-- The TAP branch of `write_to_mmds_or_tap`: emit the frame on TAP and
update the TX counters. -/
def tap_write_frame (h : NetHandler) (frame : List Nat) : NetHandler :=
  { h with tapOut := h.tapOut ++ [frame],
           metrics := { h.metrics with
             tx_bytes_count := h.metrics.tx_bytes_count + frame.length,
             tx_packets_count := h.metrics.tx_packets_count + 1 } }

/-- `write_to_mmds_or_tap`: detour the frame to MMDS if its `detour_frame`
predicate accepts the L2 bytes; MMDS frames are refunded to the TX
limiter.  Otherwise write the frame to TAP.  Returns whether MMDS consumed
the frame. -/
def write_to_mmds_or_tap (h : NetHandler) (frame : List Nat) : Bool × NetHandler :=
  match h.mmds_ns with
  | some ns =>
      if ns.accepts (frame.drop vnet_hdr_len) then
        let rl := ((h.tx.rate_limiter.manual_replenish frame.length
          TokenType.Bytes).manual_replenish 1 TokenType.Ops)
        let m := { h.metrics with mmds_rx_accepted := h.metrics.mmds_rx_accepted + 1 }
        (true, { h with metrics := m, tx := { h.tx with rate_limiter := rl } })
      else (false, tap_write_frame h frame)
  | none => (false, tap_write_frame h frame)

/-- Ghost log of the TX iteration: one entry per descriptor chain yielded
by `tx.queue.iter`, recording whether it was aborted by the Ops gate, the
Bytes gate, or fully processed (`done`, with the MMDS-consumed flag). -/
inductive TxStep
  | opsFail (head : Nat)
  | bytesFail (head : Nat)
  | done (head : Nat) (mmds : Bool)
deriving Repr, DecidableEq

/-- Result of the `process_tx` iteration: final handler, heads recorded in
`used_desc_heads`, the `rate_limited` flag, the `process_rx_for_mmds`
flag, and the ghost yield log. -/
structure TxLoopOut where
  h : NetHandler
  heads : List Nat
  rate_limited : Bool
  prm : Bool
  log : List TxStep

/-- The chain iteration of `process_tx`. -/
def process_tx_loop : Nat → NetHandler → TxLoopOut
  | 0, h => { h := h, heads := [], rate_limited := false, prm := false, log := [] }
  | Nat.succ fuel, h =>
      match h.tx.queue.next with
      | none => { h := h, heads := [], rate_limited := false, prm := false, log := [] }
      | some (chain, q1) =>
          let h1 := { h with tx := { h.tx with queue := q1 } }
          let c1 := h1.tx.rate_limiter.consume 1 TokenType.Ops
          if c1.1 then
            let h2 := { h1 with tx := { h1.tx with rate_limiter := c1.2 } }
            let iov := tx_iovec chain.descs
            let c2 := h2.tx.rate_limiter.consume ((iov.map Prod.snd).sum) TokenType.Bytes
            if c2.1 then
              let h3 := { h2 with tx := { h2.tx with rate_limiter := c2.2 } }
              let r := tx_read_chain h3.mem iov 0 h3.tx.frame_buf
              let h4 := { h3 with tx := { h3.tx with frame_buf := r.2.1 },
                                  metrics := { h3.metrics with
                                    tx_fails := h3.metrics.tx_fails + r.2.2 } }
              let frame := (List.range r.1).map r.2.1
              let w := write_to_mmds_or_tap h4 frame
              let rec1 := process_tx_loop fuel w.2
              { h := rec1.h,
                heads := chain.headIndex :: rec1.heads,
                rate_limited := rec1.rate_limited,
                prm := (w.1 && !w.2.rx.deferred_frame) || rec1.prm,
                log := TxStep.done chain.headIndex w.1 :: rec1.log }
            else
              { h := { h2 with tx := { h2.tx with rate_limiter :=
                  (c2.2.manual_replenish 1 TokenType.Ops) } },
                heads := [], rate_limited := true, prm := false,
                log := [TxStep.bytesFail chain.headIndex] }
          else
            { h := { h1 with tx := { h1.tx with rate_limiter := c1.2 } },
              heads := [], rate_limited := true, prm := false,
              log := [TxStep.opsFail chain.headIndex] }

/-- Mark every recorded head used with written-length 0, in order. -/
def add_used_all : VQueue → List Nat → VQueue
  | q, [] => q
  | q, i :: rest => add_used_all (q.add_used i 0) rest

/-- `process_tx`: iterate TX chains under the two token gates, rewind the
iterator by one if rate limiting stopped it, mark the recorded heads used,
and re-enter `process_rx` once if MMDS consumed a frame while no RX frame
was deferred.  Also returns the ghost yield log. -/
def process_tx (h : NetHandler) : NetHandler × List TxStep :=
  let r := process_tx_loop (h.tx.queue.chains.length + 1) h
  let h1 := if r.rate_limited then
      { r.h with tx := { r.h.tx with queue := r.h.tx.queue.go_to_previous_position } }
    else r.h
  let h2 := { h1 with tx := { h1.tx with queue := add_used_all h1.tx.queue r.heads } }
  let h3 := if r.prm then process_rx h2 else h2
  (h3, r.log)

/-- The five epoll events dispatched by `handle_event`. -/
inductive NetEvent
  | rxTap
  | rxQueue
  | txQueue
  | rxRateLimiter
  | txRateLimiter
deriving Repr, DecidableEq

/-- `NetEpollHandler::handle_event`.  Queue-notifier eventfd reads are
modelled as always succeeding. -/
def handle_event (ev : NetEvent) (h : NetHandler) : NetHandler :=
  match ev with
  | NetEvent.rxTap =>
      if h.rx.rate_limiter.is_blocked then h
      else if h.rx.deferred_frame then
        let r := rate_limited_rx_single_frame h
        if r.1 then
          process_rx { r.2 with rx := { r.2.rx with deferred_frame := false } }
        else if r.2.rx.deferred_irqs then
          signal_used_queue { r.2 with rx := { r.2.rx with deferred_irqs := false } }
        else r.2
      else process_rx h
  | NetEvent.rxQueue =>
      if h.rx.rate_limiter.is_blocked then h else resume_rx h
  | NetEvent.txQueue =>
      if h.tx.rate_limiter.is_blocked then h else (process_tx h).1
  | NetEvent.rxRateLimiter =>
      let e := h.rx.rate_limiter.event_handler
      if e.1 then resume_rx { h with rx := { h.rx with rate_limiter := e.2 } }
      else { h with metrics :=
        { h.metrics with event_fails := h.metrics.event_fails + 1 } }
  | NetEvent.txRateLimiter =>
      let e := h.tx.rate_limiter.event_handler
      if e.1 then (process_tx { h with tx := { h.tx with rate_limiter := e.2 } }).1
      else { h with metrics :=
        { h.metrics with event_fails := h.metrics.event_fails + 1 } }

/-- A sequence of `handle_event` invocations. -/
def run_events (evs : List NetEvent) (h : NetHandler) : NetHandler :=
  evs.foldl (fun g ev => handle_event ev g) h

/-- 2^64, the u64 wrap-around modulus. -/
def U64MOD : Nat := 18446744073709551616

/-- `Net::read_config`: reject offsets past the end (counting `cfg_fails`);
on `checked_add` overflow silently copy nothing; otherwise copy
`min(data.len, config_len - offset)` bytes into the front of `data`.
Returns the new destination buffer and whether `cfg_fails` was bumped. -/
def read_config (cfg : List Nat) (offset : Nat) (data : List Nat) :
    List Nat × Bool :=
  if cfg.length ≤ offset then (data, true)
  else if offset + data.length < U64MOD then
    ((cfg.drop offset).take (min (offset + data.length) cfg.length - offset) ++
      data.drop (min (offset + data.length) cfg.length - offset), false)
  else (data, false)

/-- `Net::write_config`: reject (counting `cfg_fails`) when
`offset + data.len > config_len` under u64 wrapping arithmetic; otherwise
`split_at_mut(offset)` (panics when `offset > config_len`) and
`copy_from_slice` (panics when the remainder length differs from
`data.len`).  `none` models a panic. -/
def write_config (cfg : List Nat) (offset : Nat) (data : List Nat) :
    Option (List Nat × Bool) :=
  if cfg.length < (offset + data.length) % U64MOD then some (cfg, true)
  else if cfg.length < offset then none
  else if (cfg.drop offset).length ≠ data.length then none
  else some (cfg.take offset ++ data, false)

/-- `ActivateError` (only `BadActivate` is reachable in the model, epoll
registration being modelled as successful). -/
inductive ActivateError
  | BadActivate
deriving Repr, DecidableEq

/-- The `Net` device state relevant to activation: the TAP handle and the
limiters (moved into the handler on first success) and the
`activate_fails` counter. -/
structure NetDev where
  tap : Option Unit
  rx_rate_limiter : Option RateLimiter
  tx_rate_limiter : Option RateLimiter
  activate_fails : Nat
deriving Repr, DecidableEq

/-- `Net::activate`, abstracted over the queue/eventfd vector lengths.
Epoll registration (outside `src/`) is modelled as succeeding. -/
def Net.activate (n : NetDev) (queues : Nat) (queue_evts : Nat) :
    NetDev × Option ActivateError :=
  if queues ≠ 2 ∨ queue_evts ≠ 2 then
    ({ n with activate_fails := n.activate_fails + 1 }, some ActivateError.BadActivate)
  else
    match n.tap with
    | some _ =>
        ({ n with tap := none, rx_rate_limiter := none, tx_rate_limiter := none }, none)
    | none =>
        ({ n with activate_fails := n.activate_fails + 1 }, some ActivateError.BadActivate)

/-- Ghost-trace extension: `g'` extends the TAP-read trace of `g` only by
reads performed while `deferred_frame` was clear. -/
def FlagsExt (g g' : NetHandler) : Prop :=
  ∃ l, g'.tapFlags = g.tapFlags ++ l ∧ ∀ b ∈ l, b = false

/-- Zeroed metric counters, for concrete states. -/
def metrics0 : Metrics :=
  { rx_fails := 0, tx_fails := 0, event_fails := 0,
    rx_bytes_count := 0, rx_packets_count := 0,
    tx_bytes_count := 0, tx_packets_count := 0,
    mmds_rx_accepted := 0, mmds_tx_frames := 0, mmds_tx_bytes := 0 }

/-- An empty virtqueue. -/
def vq0 : VQueue := { chains := [], pos := 0, used := [] }

/-- A baseline concrete handler used by the witnesses: empty queues and
sources, generous limiters. -/
def h0 : NetHandler :=
  { rx := { rate_limiter := { ops := 10, bytes := 100, blocked := false },
            deferred_frame := false, deferred_irqs := false,
            queue := vq0, bytes_read := 0, frame_buf := fun _ => 0 },
    tx := { rate_limiter := { ops := 10, bytes := 100, blocked := false },
            queue := vq0, frame_buf := fun _ => 0 },
    mem := { size := 4096, data := fun _ => 0 },
    mmds_ns := none, tapIn := [], tapOut := [],
    interrupt_status := 0, interruptEvtWrites := 0,
    metrics := metrics0, tapFlags := [], deliveryAttempts := 0 }

/-- Concrete RX-limited state for the C1 witness: no Ops budget, so the
frame is rejected and the token counts are untouched. -/
def hC1 : NetHandler :=
  { h0 with rx := { h0.rx with
      rate_limiter := { ops := 0, bytes := 7, blocked := false },
      bytes_read := 5 } }

/-- A concrete MMDS stack with one pending 3-byte response. -/
def mmdsC7 : Mmds := { pending := [[1, 2, 3]], accepts := fun _ => false }

/-- Concrete handler for the C7 witness: MMDS has a pending response. -/
def hC7 : NetHandler :=
  { h0 with mmds_ns := some mmdsC7,
            rx := { h0.rx with frame_buf := fun i => i + 50 } }

/-- The head index of a fully processed TX chain, `none` for a chain
aborted by a limiter gate. -/
def txDoneHead : TxStep → Option Nat
  | TxStep.done i _ => some i
  | TxStep.opsFail _ => none
  | TxStep.bytesFail _ => none

/-- A one-descriptor readable TX chain with head index 3 and length 5. -/
def chainC5 : DescChain :=
  { headIndex := 3, descs := [{ addr := 0, len := 5, writeOnly := false }] }

/-- Concrete handler for the C5 witness: one readable 5-byte TX chain,
Ops budget available but only 2 Bytes tokens. -/
def hC5w : NetHandler :=
  { h0 with tx := { h0.tx with
      rate_limiter := { ops := 10, bytes := 2, blocked := false },
      queue := { chains := [chainC5], pos := 0, used := [] } } }

/-- A one-descriptor readable TX chain with head index 7 and length 4. -/
def chainC6 : DescChain :=
  { headIndex := 7, descs := [{ addr := 100, len := 4, writeOnly := false }] }

/-- Concrete handler for the C6 counterexample: one TX chain available but
no Ops budget, so the yielded head is never marked used in this call. -/
def hC6 : NetHandler :=
  { h0 with tx := { h0.tx with
      rate_limiter := { ops := 0, bytes := 100, blocked := false },
      queue := { chains := [chainC6], pos := 0, used := [] } } }

/-- A writable RX chain (head 0) whose capacity (3 bytes) is smaller than
the 5-byte staged frame used in the C2 run. -/
def chainShort : DescChain :=
  { headIndex := 0, descs := [{ addr := 100, len := 3, writeOnly := true }] }

/-- A writable RX chain (head 1) large enough for the 5-byte staged
frame. -/
def chainBig : DescChain :=
  { headIndex := 1, descs := [{ addr := 200, len := 8, writeOnly := true }] }

/-- Concrete handler for the C2 run: TAP offers one 5-byte frame; the
first RX chain is too short, the second is large enough. -/
def hC2 : NetHandler :=
  { h0 with
    rx := { h0.rx with queue := { chains := [chainShort, chainBig], pos := 0, used := [] } },
    tapIn := [TapEvent.frame [9, 8, 7, 6, 5]] }

/-- Concrete handler for the C2 witness: a 5-byte frame already staged
(`bytes_read = 5`), the short chain next in the RX queue. -/
def hC2w : NetHandler :=
  { h0 with rx := { h0.rx with bytes_read := 5, queue := { chains := [chainShort, chainBig], pos := 0, used := [] } } }

/-- Concrete handler for the C3 counterexample: `deferred_irqs` is pending
at entry (set by a delivery just before the call, e.g. in `resume_rx`) and
the sources are drained. -/
def hC3 : NetHandler :=
  { h0 with rx := { h0.rx with deferred_irqs := true } }

/-- Concrete handler for the C4 witness: a frame is deferred, the Ops
bucket is empty so its delivery fails, and TAP has a frame that must NOT
be read. -/
def hC4w : NetHandler :=
  { h0 with
    rx := { h0.rx with deferred_frame := true, bytes_read := 5, rate_limiter := { ops := 0, bytes := 100, blocked := false } },
    tapIn := [TapEvent.frame [1, 2, 3]] }

/-- A fresh `Net` device: TAP present, no activation failures yet. -/
def netdev0 : NetDev :=
  { tap := some (), rx_rate_limiter := some { ops := 1, bytes := 1, blocked := false },
    tx_rate_limiter := none, activate_fails := 0 }

section RxPreservation

/-- `rx_single_frame` does not touch the rate limiter. -/
theorem rx_single_frame_rate_limiter (h : NetHandler) :
    (rx_single_frame h).2.rx.rate_limiter = h.rx.rate_limiter := by
  unfold rx_single_frame
  cases h.rx.queue.next <;> simp

/-- `rx_single_frame` does not change `bytes_read`. -/
theorem rx_single_frame_bytes_read (h : NetHandler) :
    (rx_single_frame h).2.rx.bytes_read = h.rx.bytes_read := by
  unfold rx_single_frame
  cases h.rx.queue.next <;> simp

end RxPreservation

/-- C1: whenever `rate_limited_rx_single_frame` returns false, the RX
limiter's Ops and Bytes token counts after the call equal their values
before it: an Ops-consume failure consumes nothing, a Bytes-consume
failure refunds the 1 Ops token, and a delivery failure refunds both the
1 Ops token and the `bytes_read` Bytes tokens. -/
theorem claim_C1 (h : NetHandler)
    (hfail : (rate_limited_rx_single_frame h).1 = false) :
    (rate_limited_rx_single_frame h).2.rx.rate_limiter.ops =
      h.rx.rate_limiter.ops ∧
    (rate_limited_rx_single_frame h).2.rx.rate_limiter.bytes =
      h.rx.rate_limiter.bytes := by
  unfold rate_limited_rx_single_frame at hfail ⊢
  by_cases h1 : 1 ≤ h.rx.rate_limiter.ops
  · by_cases h2 : h.rx.bytes_read ≤ h.rx.rate_limiter.bytes
    · simp only [RateLimiter.consume, h1, if_pos, if_true] at hfail ⊢
      simp only [h2, if_pos, if_true] at hfail ⊢
      by_cases h3 : (rx_single_frame { h with
          deliveryAttempts := h.deliveryAttempts + 1,
          rx := { h.rx with rate_limiter :=
            { h.rx.rate_limiter with
              ops := h.rx.rate_limiter.ops - 1,
              bytes := h.rx.rate_limiter.bytes - h.rx.bytes_read } } }).1 = true
      · simp [h3] at hfail
      · simp only [Bool.not_eq_true] at h3
        simp only [h3, if_false, Bool.false_eq_true]
        constructor
        · simp [RateLimiter.manual_replenish, rx_single_frame_rate_limiter,
            Nat.sub_add_cancel h1]
        · simp [RateLimiter.manual_replenish, rx_single_frame_rate_limiter,
            rx_single_frame_bytes_read, Nat.sub_add_cancel h2]
    · simp only [RateLimiter.consume, h1, if_pos, h2, if_neg, if_true, if_false] at hfail ⊢
      constructor
      · simp [RateLimiter.manual_replenish, Nat.sub_add_cancel h1]
      · simp [RateLimiter.manual_replenish]
  · simp only [RateLimiter.consume, h1, if_neg, if_false] at hfail ⊢
    constructor <;> rfl

/-- Witness for C1 at a concrete input. -/
theorem claim_C1_witness :
    (rate_limited_rx_single_frame hC1).1 = false ∧
    (rate_limited_rx_single_frame hC1).2.rx.rate_limiter.ops =
      hC1.rx.rate_limiter.ops ∧
    (rate_limited_rx_single_frame hC1).2.rx.rate_limiter.bytes =
      hC1.rx.rate_limiter.bytes :=
  ⟨by decide, claim_C1 hC1 (by decide)⟩

/-- C7: `read_from_mmds_or_tap` polls the MMDS stack before TAP: when the
stack produces a payload of length `n`, the 12-byte vnet header of the RX
frame buffer is zeroed, the payload is placed right after it, and the
function returns `12 + n` without reading TAP; when MMDS is absent or
produces nothing, the call is exactly a TAP read. -/
theorem claim_C7 (h : NetHandler) :
    (∀ ns p ns', h.mmds_ns = some ns → ns.write_next_frame = some (p, ns') →
      (read_from_mmds_or_tap h).1 = Except.ok (vnet_hdr_len + p.length) ∧
      (∀ i, i < vnet_hdr_len → (read_from_mmds_or_tap h).2.rx.frame_buf i = 0) ∧
      (∀ j, j < p.length →
        (read_from_mmds_or_tap h).2.rx.frame_buf (vnet_hdr_len + j) = p.getD j 0) ∧
      (∀ i, vnet_hdr_len + p.length ≤ i →
        (read_from_mmds_or_tap h).2.rx.frame_buf i = h.rx.frame_buf i) ∧
      (read_from_mmds_or_tap h).2.tapIn = h.tapIn ∧
      (read_from_mmds_or_tap h).2.tapFlags = h.tapFlags) ∧
    ((h.mmds_ns = none ∨ ∃ ns, h.mmds_ns = some ns ∧ ns.pending = []) →
      read_from_mmds_or_tap h = read_tap h) := by
  constructor
  · intro ns p ns' hns hwnf
    unfold read_from_mmds_or_tap
    rw [hns]
    dsimp only
    rw [hwnf]
    dsimp only
    refine ⟨rfl, ?_, ?_, ?_, rfl, rfl⟩
    · intro i hi
      simp [init_vnet_hdr, hi]
    · intro j hj
      simp only [init_vnet_hdr, write_payload_at]
      have h1 : ¬ vnet_hdr_len + j < vnet_hdr_len := by omega
      have h2 : vnet_hdr_len ≤ vnet_hdr_len + j := Nat.le_add_right _ _
      have h3 : vnet_hdr_len + j < vnet_hdr_len + p.length := by omega
      simp [h1, h2, h3]
    · intro i hi
      simp only [init_vnet_hdr, write_payload_at]
      have h1 : ¬ i < vnet_hdr_len := by
        have : vnet_hdr_len ≤ vnet_hdr_len + p.length := Nat.le_add_right _ _
        omega
      have h2 : ¬ i < vnet_hdr_len + p.length := by omega
      simp [h1, h2]
  · intro hsrc
    rcases hsrc with hnone | ⟨ns, hns, hpend⟩
    · unfold read_from_mmds_or_tap
      rw [hnone]
    · unfold read_from_mmds_or_tap
      rw [hns]
      dsimp only
      have hwn : ns.write_next_frame = none := by
        unfold Mmds.write_next_frame
        rw [hpend]
      rw [hwn]

/-- Witness for C7 at a concrete input: a pending 3-byte MMDS payload is
delivered after a zeroed header, with no TAP read. -/
theorem claim_C7_witness :
    (read_from_mmds_or_tap hC7).1 = Except.ok (vnet_hdr_len + 3) ∧
    (read_from_mmds_or_tap hC7).2.rx.frame_buf 0 = 0 ∧
    (read_from_mmds_or_tap hC7).2.rx.frame_buf 12 = 1 ∧
    (read_from_mmds_or_tap hC7).2.rx.frame_buf 20 = 70 ∧
    (read_from_mmds_or_tap hC7).2.tapFlags = hC7.tapFlags := by
  have hmain := (claim_C7 hC7).1 mmdsC7 [1, 2, 3] { mmdsC7 with pending := [] } rfl rfl
  refine ⟨hmain.1, hmain.2.1 0 (by decide), ?_, ?_, hmain.2.2.2.2.2⟩
  · have := hmain.2.2.1 0 (by decide)
    simpa using this
  · have := hmain.2.2.2.1 20 (by decide)
    simpa [hC7, h0] using this

/-- C8 (code evaluation at the failing input): an in-bounds write with
`offset + data.len < config_len` panics in `copy_from_slice` (modelled as
`none`) instead of writing the bytes at `offset`; the exact-fit write and
the out-of-bounds rejection behave as the claim says. -/
theorem claim_C8_code_eval :
    write_config [1, 2, 3, 4, 5, 6] 2 [10, 11] = none ∧
    write_config [1, 2, 3, 4, 5, 6] 0 [9, 8, 7, 6, 5, 4] = some ([9, 8, 7, 6, 5, 4], false) ∧
    write_config [1, 2, 3, 4, 5, 6] 5 [10, 11] = some ([1, 2, 3, 4, 5, 6], true) := by
  refine ⟨?_, ?_, ?_⟩ <;> rfl

/-- C9: after one successful `activate`, the TAP handle has been moved
into the handler, and every later `activate` — even with two queues and
two eventfds — returns `BadActivate`, increments `activate_fails`, and
leaves the TAP handle absent (so all further calls keep failing). -/
theorem claim_C9 (n : NetDev) (_hok : (Net.activate n 2 2).2 = none) :
    (Net.activate n 2 2).1.tap = none ∧
    (∀ m : NetDev, m.tap = none →
      (Net.activate m 2 2).2 = some ActivateError.BadActivate ∧
      (Net.activate m 2 2).1.activate_fails = m.activate_fails + 1 ∧
      (Net.activate m 2 2).1.tap = none) := by
  have hcond : ¬ ((2 : Nat) ≠ 2 ∨ (2 : Nat) ≠ 2) := by simp
  constructor
  · unfold Net.activate
    rw [if_neg hcond]
    cases htap : n.tap <;> rfl
  · intro m hm
    unfold Net.activate
    rw [if_neg hcond, hm]
    exact ⟨rfl, rfl, rfl⟩

/-- Witness for C9: a fresh device activates once, then the second
activate fails with `BadActivate` and bumps `activate_fails`. -/
theorem claim_C9_witness :
    (Net.activate netdev0 2 2).2 = none ∧
    (Net.activate (Net.activate netdev0 2 2).1 2 2).2 = some ActivateError.BadActivate ∧
    (Net.activate (Net.activate netdev0 2 2).1 2 2).1.activate_fails =
      (Net.activate netdev0 2 2).1.activate_fails + 1 := by
  have hok : (Net.activate netdev0 2 2).2 = none := by decide
  have hmain := claim_C9 netdev0 hok
  exact ⟨hok, (hmain.2 _ hmain.1).1, (hmain.2 _ hmain.1).2.1⟩

/-- C10: `read_config` with `offset < config_len`: if `offset + data.len`
overflows u64 the destination is returned unchanged with no `cfg_fails`
bump; otherwise exactly `min(data.len, config_len - offset)` bytes are
copied to the front of the destination and the rest is untouched. -/
theorem claim_C10 (cfg data : List Nat) (offset : Nat)
    (hoff : offset < cfg.length) :
    (U64MOD ≤ offset + data.length →
      read_config cfg offset data = (data, false)) ∧
    (offset + data.length < U64MOD →
      (read_config cfg offset data).2 = false ∧
      (read_config cfg offset data).1 =
        (cfg.drop offset).take (min data.length (cfg.length - offset)) ++
          data.drop (min data.length (cfg.length - offset))) := by
  have hle : ¬ cfg.length ≤ offset := Nat.not_le.mpr hoff
  constructor
  · intro hov
    unfold read_config
    rw [if_neg hle, if_neg (Nat.not_lt.mpr hov)]
  · intro hlt
    unfold read_config
    rw [if_neg hle, if_pos hlt]
    have hmin : min (offset + data.length) cfg.length - offset =
        min data.length (cfg.length - offset) := by omega
    rw [hmin]
    exact ⟨rfl, rfl⟩

/-- Witness for C10 at a concrete input: two of four requested bytes are
available and copied; the rest of the destination is untouched. -/
theorem claim_C10_witness :
    (read_config [1, 2, 3] 1 [0, 0, 0, 0]).2 = false ∧
    (read_config [1, 2, 3] 1 [0, 0, 0, 0]).1 = [2, 3, 0, 0] := by
  have hmain := (claim_C10 [1, 2, 3] [0, 0, 0, 0] 1 (by decide)).2 (by decide)
  refine ⟨hmain.1, ?_⟩
  rw [hmain.2]
  rfl

section TxLemmas

/-- Characterization of a successful queue yield: the remaining queue
keeps the chains and used ring and advances the position. -/
theorem VQueue.next_spec (q : VQueue) (c : DescChain) (q' : VQueue)
    (hn : q.next = some (c, q')) :
    q'.used = q.used ∧ q'.chains = q.chains ∧ q'.pos = q.pos + 1 := by
  unfold VQueue.next at hn
  cases hg : q.chains.get? q.pos with
  | none => rw [hg] at hn; exact absurd hn (by simp)
  | some c0 =>
      rw [hg] at hn
      simp only [Option.some.injEq, Prod.mk.injEq] at hn
      rw [← hn.2]
      exact ⟨rfl, rfl, rfl⟩

/-- `write_to_mmds_or_tap` never touches the TX queue. -/
theorem write_to_mmds_or_tap_tx_queue (g : NetHandler) (f : List Nat) :
    (write_to_mmds_or_tap g f).2.tx.queue = g.tx.queue := by
  unfold write_to_mmds_or_tap
  cases g.mmds_ns with
  | none => rfl
  | some ns =>
      dsimp only
      by_cases ha : ns.accepts (f.drop vnet_hdr_len) = true
      · rw [if_pos ha]
      · rw [if_neg ha]
        rfl

/-- `write_to_mmds_or_tap` never touches the RX state. -/
theorem write_to_mmds_or_tap_rx (g : NetHandler) (f : List Nat) :
    (write_to_mmds_or_tap g f).2.rx = g.rx := by
  unfold write_to_mmds_or_tap
  cases g.mmds_ns with
  | none => rfl
  | some ns =>
      dsimp only
      by_cases ha : ns.accepts (f.drop vnet_hdr_len) = true
      · rw [if_pos ha]
      · rw [if_neg ha]
        rfl

/-- Chain iteration only accumulates `used` entries via the final
`add_used` batch, never inside the loop, and it records in
`used_desc_heads` exactly the fully processed heads of the yield log. -/
theorem process_tx_loop_spec : ∀ (fuel : Nat) (h : NetHandler),
    (process_tx_loop fuel h).h.tx.queue.used = h.tx.queue.used ∧
    (process_tx_loop fuel h).heads =
      (process_tx_loop fuel h).log.filterMap txDoneHead
  | 0, h => by simp [process_tx_loop, txDoneHead]
  | Nat.succ fuel, h => by
      unfold process_tx_loop
      cases hnext : h.tx.queue.next with
      | none => simp [txDoneHead]
      | some pr =>
          obtain ⟨chain, q1⟩ := pr
          have hq1 : q1.used = h.tx.queue.used :=
            (VQueue.next_spec _ _ _ hnext).1
          dsimp only
          split
          · split
            · refine ⟨?_, ?_⟩
              · dsimp only
                rw [(process_tx_loop_spec fuel _).1, write_to_mmds_or_tap_tx_queue]
                exact hq1
              · dsimp only
                rw [(process_tx_loop_spec fuel _).2]
                simp [txDoneHead]
            · exact ⟨hq1, by simp [txDoneHead]⟩
          · exact ⟨hq1, by simp [txDoneHead]⟩

/-- Marking the recorded heads used appends exactly one `(head, 0)` entry
per head, in order. -/
theorem add_used_all_used : ∀ (heads : List Nat) (q : VQueue),
    (add_used_all q heads).used = q.used ++ heads.map (fun i => (i, 0))
  | [], q => by simp [add_used_all]
  | i :: rest, q => by
      unfold add_used_all
      rw [add_used_all_used rest]
      simp [VQueue.add_used]

/-- `add_used_all` leaves the chain list and position unchanged. -/
theorem add_used_all_chains_pos : ∀ (heads : List Nat) (q : VQueue),
    (add_used_all q heads).chains = q.chains ∧ (add_used_all q heads).pos = q.pos
  | [], q => ⟨rfl, rfl⟩
  | i :: rest, q => by
      unfold add_used_all
      exact add_used_all_chains_pos rest _

end TxLemmas

section RxTxSeparation

/-- `read_tap` never touches the TX state. -/
theorem read_tap_tx (g : NetHandler) : (read_tap g).2.tx = g.tx := by
  unfold read_tap
  cases g.tapIn with
  | nil => rfl
  | cons e rest => cases e <;> rfl

/-- `read_from_mmds_or_tap` never touches the TX state. -/
theorem read_from_mmds_or_tap_tx (g : NetHandler) :
    (read_from_mmds_or_tap g).2.tx = g.tx := by
  unfold read_from_mmds_or_tap
  cases g.mmds_ns with
  | none => exact read_tap_tx g
  | some ns =>
      dsimp only
      cases ns.write_next_frame with
      | none => exact read_tap_tx g
      | some pr => cases pr; rfl

/-- `rx_single_frame` never touches the TX state. -/
theorem rx_single_frame_tx (g : NetHandler) : (rx_single_frame g).2.tx = g.tx := by
  unfold rx_single_frame
  cases g.rx.queue.next with
  | none => rfl
  | some pr => cases pr; rfl

/-- `rate_limited_rx_single_frame` never touches the TX state. -/
theorem rate_limited_rx_single_frame_tx (g : NetHandler) :
    (rate_limited_rx_single_frame g).2.tx = g.tx := by
  unfold rate_limited_rx_single_frame
  dsimp only
  split
  · split
    · split
      · rw [rx_single_frame_tx]
      · dsimp only
        rw [rx_single_frame_tx]
    · rfl
  · rfl

/-- The RX drain loop never touches the TX state. -/
theorem process_rx_loop_tx : ∀ (fuel : Nat) (g : NetHandler),
    (process_rx_loop fuel g).tx = g.tx
  | 0, _ => rfl
  | Nat.succ fuel, g => by
      unfold process_rx_loop
      cases hr : read_from_mmds_or_tap g with
      | mk res g1 =>
          have h1 : g1.tx = g.tx := by
            have := read_from_mmds_or_tap_tx g
            rw [hr] at this
            exact this
          cases res with
          | ok count =>
              dsimp only
              split
              · rw [process_rx_loop_tx fuel, rate_limited_rx_single_frame_tx]
                exact h1
              · rw [rate_limited_rx_single_frame_tx]
                exact h1
          | error eagain =>
              dsimp only
              split <;> exact h1

/-- `process_rx` never touches the TX state. -/
theorem process_rx_tx (g : NetHandler) : (process_rx g).tx = g.tx := by
  unfold process_rx
  dsimp only
  split
  · show (signal_used_queue _).tx = g.tx
    unfold signal_used_queue
    dsimp only
    rw [← process_rx_loop_tx (rx_src_fuel g) g]
  · exact process_rx_loop_tx (rx_src_fuel g) g

end RxTxSeparation

/-- One TX iteration step in the Bytes-gate failure case: the Ops token
is consumed and refunded, the limiter is blocked, the loop stops with the
single `bytesFail` log entry and records no head. -/
theorem process_tx_loop_bytesFail (fuel : Nat) (h : NetHandler) (c : DescChain)
    (q1 : VQueue) (hnext : h.tx.queue.next = some (c, q1))
    (hops : 1 ≤ h.tx.rate_limiter.ops)
    (hbytes : h.tx.rate_limiter.bytes < tx_read_count c) :
    process_tx_loop (fuel + 1) h =
      { h := { h with tx := { h.tx with queue := q1, rate_limiter :=
          { ops := h.tx.rate_limiter.ops - 1 + 1,
            bytes := h.tx.rate_limiter.bytes, blocked := true } } },
        heads := [], rate_limited := true, prm := false,
        log := [TxStep.bytesFail c.headIndex] } := by
  have hb : ¬ ((tx_iovec c.descs).map Prod.snd).sum ≤ h.tx.rate_limiter.bytes := by
    unfold tx_read_count at hbytes
    omega
  unfold process_tx_loop
  rw [hnext]
  dsimp only
  simp only [RateLimiter.consume, RateLimiter.manual_replenish, eq_true hops,
    eq_false hb, if_true, if_false, ite_true, ite_false, Bool.false_eq_true]

/-- The `tx` field is unchanged whether or not `process_rx` re-entry
happens. -/
theorem ite_process_rx_tx (b : Bool) (g : NetHandler) :
    (if b then process_rx g else g).tx = g.tx := by
  cases b
  · rfl
  · exact process_rx_tx g

/-- C5: in `process_tx`, whenever the Bytes-token consume for the next
chain (of total readable length `tx_read_count c`) fails, the 1 Ops token
consumed for that chain is refunded, iteration stops (nothing is marked
used and nothing further is yielded), and the TX queue iterator is stepped
back exactly one position, so the same chain is yielded again by the next
iteration. -/
theorem claim_C5 (h : NetHandler) (c : DescChain)
    (hq : h.tx.queue.chains.get? h.tx.queue.pos = some c)
    (hops : 1 ≤ h.tx.rate_limiter.ops)
    (hbytes : h.tx.rate_limiter.bytes < tx_read_count c) :
    (process_tx h).1.tx.rate_limiter.ops = h.tx.rate_limiter.ops ∧
    (process_tx h).1.tx.rate_limiter.bytes = h.tx.rate_limiter.bytes ∧
    (process_tx h).1.tx.queue = h.tx.queue ∧
    (process_tx h).1.tx.queue.chains.get? (process_tx h).1.tx.queue.pos = some c ∧
    (process_tx h).2 = [TxStep.bytesFail c.headIndex] := by
  have hnext : h.tx.queue.next =
      some (c, { h.tx.queue with pos := h.tx.queue.pos + 1 }) := by
    unfold VQueue.next
    rw [hq]
  have hrun := process_tx_loop_bytesFail h.tx.queue.chains.length h c _ hnext hops hbytes
  have hqeq : (process_tx h).1.tx.queue = h.tx.queue := by
    unfold process_tx
    rw [hrun]
    dsimp only [VQueue.go_to_previous_position, add_used_all]
    simp
  refine ⟨?_, ?_, hqeq, ?_, ?_⟩
  · unfold process_tx
    rw [hrun]
    dsimp only [add_used_all]
    simp [Nat.sub_add_cancel hops]
  · unfold process_tx
    rw [hrun]
    dsimp only [add_used_all]
    simp
  · rw [hqeq]
    exact hq
  · unfold process_tx
    rw [hrun]

/-- Witness for C5 at a concrete input: a 5-byte chain against 2 Bytes
tokens is rejected, refunded and re-yielded. -/
theorem claim_C5_witness :
    (process_tx hC5w).1.tx.rate_limiter.ops = hC5w.tx.rate_limiter.ops ∧
    (process_tx hC5w).1.tx.rate_limiter.bytes = hC5w.tx.rate_limiter.bytes ∧
    (process_tx hC5w).1.tx.queue = hC5w.tx.queue ∧
    (process_tx hC5w).2 = [TxStep.bytesFail 3] := by
  have hmain := claim_C5 hC5w chainC5 rfl (by decide) (by decide)
  exact ⟨hmain.1, hmain.2.1, hmain.2.2.1, by simpa using hmain.2.2.2.2⟩

/-- C6 counterexample: with one available TX chain (head index 7) and no
Ops budget, the chain is yielded by queue iteration (the log records it)
but `process_tx` returns without issuing any `add_used` for it — the
claimed "exactly one add_used per yielded head" fails at this input. -/
theorem claim_C6_counterexample :
    (process_tx hC6).2 = [TxStep.opsFail 7] ∧
    (process_tx hC6).1.tx.queue.used = [] := by
  exact ⟨rfl, rfl⟩

/-- C6 (amended): for every head index yielded by TX queue iteration that
passes both limiter gates, exactly one `add_used` with written-length 0 is
issued before `process_tx` returns, in iteration order; a chain aborted by
a limiter gate receives none in that call (the iterator is rewound
instead). -/
theorem claim_C6 (h : NetHandler) :
    (process_tx h).1.tx.queue.used =
      h.tx.queue.used ++
        (((process_tx h).2.filterMap txDoneHead).map (fun i => (i, 0))) := by
  have hspec := process_tx_loop_spec (h.tx.queue.chains.length + 1) h
  unfold process_tx
  dsimp only
  rw [ite_process_rx_tx]
  dsimp only
  rw [add_used_all_used, hspec.2]
  congr 1
  by_cases hrl : (process_tx_loop (h.tx.queue.chains.length + 1) h).rate_limited = true
  · rw [if_pos hrl]
    dsimp only [VQueue.go_to_previous_position]
    exact hspec.1
  · rw [if_neg hrl]
    exact hspec.1

section RxGhostLemmas

/-- Fields of the handler untouched by `read_tap`, and the shape of its
ghost trace: it appends exactly the current `deferred_frame` value. -/
theorem read_tap_ghost (g : NetHandler) :
    (read_tap g).2.rx.deferred_frame = g.rx.deferred_frame ∧
    (read_tap g).2.rx.deferred_irqs = g.rx.deferred_irqs ∧
    (read_tap g).2.rx.queue = g.rx.queue ∧
    (read_tap g).2.rx.rate_limiter = g.rx.rate_limiter ∧
    (read_tap g).2.rx.bytes_read = g.rx.bytes_read ∧
    (read_tap g).2.interruptEvtWrites = g.interruptEvtWrites ∧
    (read_tap g).2.deliveryAttempts = g.deliveryAttempts ∧
    (read_tap g).2.mmds_ns = g.mmds_ns ∧
    (read_tap g).2.mem = g.mem ∧
    (read_tap g).2.metrics = g.metrics ∧
    (read_tap g).2.tapFlags = g.tapFlags ++ [g.rx.deferred_frame] := by
  unfold read_tap
  cases g.tapIn with
  | nil => exact ⟨rfl, rfl, rfl, rfl, rfl, rfl, rfl, rfl, rfl, rfl, rfl⟩
  | cons e rest =>
      cases e <;> exact ⟨rfl, rfl, rfl, rfl, rfl, rfl, rfl, rfl, rfl, rfl, rfl⟩

/-- Fields untouched by `read_from_mmds_or_tap`, and its ghost-trace
shape: every appended flag equals the current `deferred_frame`. -/
theorem read_from_mmds_or_tap_ghost (g : NetHandler) :
    (read_from_mmds_or_tap g).2.rx.deferred_frame = g.rx.deferred_frame ∧
    (read_from_mmds_or_tap g).2.rx.deferred_irqs = g.rx.deferred_irqs ∧
    (read_from_mmds_or_tap g).2.rx.queue = g.rx.queue ∧
    (read_from_mmds_or_tap g).2.rx.rate_limiter = g.rx.rate_limiter ∧
    (read_from_mmds_or_tap g).2.interruptEvtWrites = g.interruptEvtWrites ∧
    (read_from_mmds_or_tap g).2.deliveryAttempts = g.deliveryAttempts ∧
    (∃ l, (read_from_mmds_or_tap g).2.tapFlags = g.tapFlags ++ l ∧
      ∀ b ∈ l, b = g.rx.deferred_frame) := by
  unfold read_from_mmds_or_tap
  cases g.mmds_ns with
  | none =>
      have hg := read_tap_ghost g
      exact ⟨hg.1, hg.2.1, hg.2.2.1, hg.2.2.2.1, hg.2.2.2.2.2.1, hg.2.2.2.2.2.2.1,
        [g.rx.deferred_frame], hg.2.2.2.2.2.2.2.2.2.2, by simp⟩
  | some ns =>
      dsimp only
      cases ns.write_next_frame with
      | none =>
          have hg := read_tap_ghost g
          exact ⟨hg.1, hg.2.1, hg.2.2.1, hg.2.2.2.1, hg.2.2.2.2.2.1, hg.2.2.2.2.2.2.1,
            [g.rx.deferred_frame], hg.2.2.2.2.2.2.2.2.2.2, by simp⟩
      | some pr =>
          cases pr
          exact ⟨rfl, rfl, rfl, rfl, rfl, rfl, [], by simp, by simp⟩

/-- Fields untouched by `rx_single_frame` (beyond those already
covered). -/
theorem rx_single_frame_ghost (g : NetHandler) :
    (rx_single_frame g).2.rx.deferred_frame = g.rx.deferred_frame ∧
    (rx_single_frame g).2.tapFlags = g.tapFlags ∧
    (rx_single_frame g).2.tapIn = g.tapIn ∧
    (rx_single_frame g).2.deliveryAttempts = g.deliveryAttempts ∧
    (rx_single_frame g).2.interruptEvtWrites = g.interruptEvtWrites ∧
    (rx_single_frame g).2.mmds_ns = g.mmds_ns := by
  unfold rx_single_frame
  cases g.rx.queue.next with
  | none => exact ⟨rfl, rfl, rfl, rfl, rfl, rfl⟩
  | some pr => cases pr; exact ⟨rfl, rfl, rfl, rfl, rfl, rfl⟩

/-- Fields untouched by `rate_limited_rx_single_frame`; the ghost
`deliveryAttempts` counter is bumped exactly once. -/
theorem rate_limited_rx_single_frame_ghost (g : NetHandler) :
    (rate_limited_rx_single_frame g).2.rx.deferred_frame = g.rx.deferred_frame ∧
    (rate_limited_rx_single_frame g).2.tapFlags = g.tapFlags ∧
    (rate_limited_rx_single_frame g).2.tapIn = g.tapIn ∧
    (rate_limited_rx_single_frame g).2.deliveryAttempts = g.deliveryAttempts + 1 ∧
    (rate_limited_rx_single_frame g).2.interruptEvtWrites = g.interruptEvtWrites ∧
    (rate_limited_rx_single_frame g).2.mmds_ns = g.mmds_ns := by
  unfold rate_limited_rx_single_frame
  dsimp only
  split
  · split
    · split
      · exact ⟨(rx_single_frame_ghost _).1, (rx_single_frame_ghost _).2.1,
          (rx_single_frame_ghost _).2.2.1, (rx_single_frame_ghost _).2.2.2.1,
          (rx_single_frame_ghost _).2.2.2.2.1, (rx_single_frame_ghost _).2.2.2.2.2⟩
      · exact ⟨(rx_single_frame_ghost _).1, (rx_single_frame_ghost _).2.1,
          (rx_single_frame_ghost _).2.2.1, (rx_single_frame_ghost _).2.2.2.1,
          (rx_single_frame_ghost _).2.2.2.2.1, (rx_single_frame_ghost _).2.2.2.2.2⟩
    · exact ⟨rfl, rfl, rfl, rfl, rfl, rfl⟩
  · exact ⟨rfl, rfl, rfl, rfl, rfl, rfl⟩

end RxGhostLemmas

section RxIrqLemmas

/-- `rx_single_frame` either changes nothing (no chain available) or it
both sets `deferred_irqs` and adds exactly one used entry. -/
theorem rx_single_frame_irqs (g : NetHandler) :
    ((rx_single_frame g).2.rx.deferred_irqs = g.rx.deferred_irqs ∧
     (rx_single_frame g).2.rx.queue.used = g.rx.queue.used) ∨
    ((rx_single_frame g).2.rx.deferred_irqs = true ∧
     (rx_single_frame g).2.rx.queue.used.length = g.rx.queue.used.length + 1) := by
  unfold rx_single_frame
  cases hn : g.rx.queue.next with
  | none => exact Or.inl ⟨rfl, rfl⟩
  | some pr =>
      obtain ⟨chain, q1⟩ := pr
      refine Or.inr ⟨rfl, ?_⟩
      dsimp only [VQueue.add_used]
      rw [List.length_append, (VQueue.next_spec _ _ _ hn).1]
      rfl

/-- Same dichotomy through the rate-limited wrapper. -/
theorem rate_limited_rx_single_frame_irqs (g : NetHandler) :
    ((rate_limited_rx_single_frame g).2.rx.deferred_irqs = g.rx.deferred_irqs ∧
     (rate_limited_rx_single_frame g).2.rx.queue.used = g.rx.queue.used) ∨
    ((rate_limited_rx_single_frame g).2.rx.deferred_irqs = true ∧
     (rate_limited_rx_single_frame g).2.rx.queue.used.length =
       g.rx.queue.used.length + 1) := by
  unfold rate_limited_rx_single_frame
  dsimp only
  split
  · split
    · split
      · exact rx_single_frame_irqs _
      · exact rx_single_frame_irqs _
    · exact Or.inl ⟨rfl, rfl⟩
  · exact Or.inl ⟨rfl, rfl⟩

/-- The RX drain loop never writes the interrupt eventfd, only grows the
used ring, and can only leave `deferred_irqs` set if it was set at entry
or a used entry was added by the loop. -/
theorem process_rx_loop_c3 : ∀ (fuel : Nat) (g : NetHandler),
    (process_rx_loop fuel g).interruptEvtWrites = g.interruptEvtWrites ∧
    g.rx.queue.used.length ≤ (process_rx_loop fuel g).rx.queue.used.length ∧
    ((process_rx_loop fuel g).rx.deferred_irqs = true →
      g.rx.deferred_irqs = true ∨
        g.rx.queue.used.length < (process_rx_loop fuel g).rx.queue.used.length)
  | 0, g => ⟨rfl, Nat.le_refl _, fun hirq => Or.inl hirq⟩
  | Nat.succ fuel, g => by
      have hgr := read_from_mmds_or_tap_ghost g
      unfold process_rx_loop
      cases hr : read_from_mmds_or_tap g with
      | mk res g1 =>
          rw [hr] at hgr
          cases res with
          | ok count =>
              dsimp only
              generalize hX :
                ({ g1 with rx := { g1.rx with bytes_read := count } } : NetHandler) = g2
              have hw2 : g2.interruptEvtWrites = g.interruptEvtWrites := by
                rw [← hX]; exact hgr.2.2.2.2.1
              have hq2 : g2.rx.queue = g.rx.queue := by
                rw [← hX]; exact hgr.2.2.1
              have hi2 : g2.rx.deferred_irqs = g.rx.deferred_irqs := by
                rw [← hX]; exact hgr.2.1
              have hrl := rate_limited_rx_single_frame_ghost g2
              have hirq := rate_limited_rx_single_frame_irqs g2
              have hlen2 : g2.rx.queue.used.length = g.rx.queue.used.length := by
                rw [hq2]
              have hlen12 : g2.rx.queue.used.length ≤
                  (rate_limited_rx_single_frame g2).2.rx.queue.used.length := by
                rcases hirq with ⟨_, hus⟩ | ⟨_, hus⟩
                · rw [hus]
                · omega
              have hirq_f : (rate_limited_rx_single_frame g2).2.rx.deferred_irqs = true →
                  g2.rx.deferred_irqs = true ∨
                    g2.rx.queue.used.length <
                      (rate_limited_rx_single_frame g2).2.rx.queue.used.length := by
                rcases hirq with ⟨hie, _⟩ | ⟨_, hus⟩
                · intro hh
                  rw [hie] at hh
                  exact Or.inl hh
                · intro _
                  right
                  omega
              split
              · have IH := process_rx_loop_c3 fuel (rate_limited_rx_single_frame g2).2
                refine ⟨?_, ?_, ?_⟩
                · rw [IH.1, hrl.2.2.2.2.1, hw2]
                · calc g.rx.queue.used.length
                      = g2.rx.queue.used.length := hlen2.symm
                    _ ≤ (rate_limited_rx_single_frame g2).2.rx.queue.used.length := hlen12
                    _ ≤ _ := IH.2.1
                · intro hfin
                  rcases IH.2.2 hfin with hr2 | hlt
                  · rcases hirq_f hr2 with hg2 | hgrow
                    · rw [hi2] at hg2
                      exact Or.inl hg2
                    · right
                      have := IH.2.1
                      omega
                  · right
                    omega
              · refine ⟨?_, ?_, ?_⟩
                · show (rate_limited_rx_single_frame g2).2.interruptEvtWrites =
                    g.interruptEvtWrites
                  rw [hrl.2.2.2.2.1, hw2]
                · show g.rx.queue.used.length ≤
                    (rate_limited_rx_single_frame g2).2.rx.queue.used.length
                  omega
                · intro hfin
                  rcases hirq_f hfin with hg2 | hgrow
                  · rw [hi2] at hg2
                    exact Or.inl hg2
                  · right
                    show g.rx.queue.used.length <
                      (rate_limited_rx_single_frame g2).2.rx.queue.used.length
                    omega
          | error eagain =>
              dsimp only
              split
              · exact ⟨hgr.2.2.2.2.1, by rw [hgr.2.2.1],
                  fun hq => Or.inl (by rw [← hgr.2.1]; exact hq)⟩
              · exact ⟨hgr.2.2.2.2.1, by rw [hgr.2.2.1],
                  fun hq => Or.inl (by rw [← hgr.2.1]; exact hq)⟩

end RxIrqLemmas

/-- C3 counterexample: with `deferred_irqs` pending at entry (set by a
delivery just before the call, as `resume_rx` does) and the sources
drained, `process_rx` writes the interrupt eventfd once although no
used-ring entry was added during that call. -/
theorem claim_C3_counterexample :
    (process_rx hC3).interruptEvtWrites = hC3.interruptEvtWrites + 1 ∧
    (process_rx hC3).rx.queue.used = hC3.rx.queue.used := by
  exact ⟨rfl, rfl⟩

/-- C3 (amended): during one `process_rx` call the interrupt eventfd is
written at most once, and it is written only if at least one used-ring
entry was added during that call or `deferred_irqs` was already set at
entry (by a delivery immediately preceding the call in the same event). -/
theorem claim_C3 (h : NetHandler) :
    (process_rx h).interruptEvtWrites ≤ h.interruptEvtWrites + 1 ∧
    (h.interruptEvtWrites < (process_rx h).interruptEvtWrites →
      h.rx.deferred_irqs = true ∨
        h.rx.queue.used.length < (process_rx h).rx.queue.used.length) := by
  have hl := process_rx_loop_c3 (rx_src_fuel h) h
  unfold process_rx
  dsimp only
  split
  · constructor
    · show (process_rx_loop (rx_src_fuel h) h).interruptEvtWrites + 1 ≤
        h.interruptEvtWrites + 1
      omega
    · intro _
      rcases hl.2.2 (by assumption) with hirq | hgrow
      · exact Or.inl hirq
      · right
        show h.rx.queue.used.length <
          (process_rx_loop (rx_src_fuel h) h).rx.queue.used.length
        omega
  · constructor
    · omega
    · intro hlt
      rw [hl.1] at hlt
      exact absurd hlt (Nat.lt_irrefl _)

/-- Witness for C3 at a concrete input. -/
theorem claim_C3_witness :
    (process_rx hC3).interruptEvtWrites ≤ hC3.interruptEvtWrites + 1 ∧
    (hC3.rx.deferred_irqs = true ∨
      hC3.rx.queue.used.length < (process_rx hC3).rx.queue.used.length) :=
  ⟨(claim_C3 hC3).1, (claim_C3 hC3).2 (by decide)⟩

section RxAttemptLemmas

/-- The drain loop only increases the ghost delivery-attempt counter. -/
theorem process_rx_loop_attempts : ∀ (fuel : Nat) (g : NetHandler),
    g.deliveryAttempts ≤ (process_rx_loop fuel g).deliveryAttempts
  | 0, g => Nat.le_refl _
  | Nat.succ fuel, g => by
      have hgr := read_from_mmds_or_tap_ghost g
      unfold process_rx_loop
      cases hr : read_from_mmds_or_tap g with
      | mk res g1 =>
          rw [hr] at hgr
          cases res with
          | ok count =>
              dsimp only
              generalize hX :
                ({ g1 with rx := { g1.rx with bytes_read := count } } : NetHandler) = g2
              have ha2 : g2.deliveryAttempts = g.deliveryAttempts := by
                rw [← hX]; exact hgr.2.2.2.2.2.1
              have hrl := (rate_limited_rx_single_frame_ghost g2).2.2.2.1
              split
              · have IH := process_rx_loop_attempts fuel (rate_limited_rx_single_frame g2).2
                omega
              · show g.deliveryAttempts ≤
                  (rate_limited_rx_single_frame g2).2.deliveryAttempts
                omega
          | error eagain =>
              dsimp only
              split
              · exact Nat.le_of_eq hgr.2.2.2.2.2.1.symm
              · exact Nat.le_of_eq hgr.2.2.2.2.2.1.symm

/-- `process_rx` only increases the ghost delivery-attempt counter. -/
theorem process_rx_attempts (g : NetHandler) :
    g.deliveryAttempts ≤ (process_rx g).deliveryAttempts := by
  have hl := process_rx_loop_attempts (rx_src_fuel g) g
  unfold process_rx
  dsimp only
  split
  · show g.deliveryAttempts ≤
      (process_rx_loop (rx_src_fuel g) g).deliveryAttempts
    exact hl
  · exact hl

/-- While a frame is deferred, every `resume_rx` makes at least one
further delivery attempt for it. -/
theorem resume_rx_attempts (g : NetHandler) (hdef : g.rx.deferred_frame = true) :
    g.deliveryAttempts < (resume_rx g).deliveryAttempts := by
  unfold resume_rx
  rw [if_pos hdef]
  dsimp only
  split
  · refine Nat.lt_of_lt_of_le (Nat.lt_succ_self _) ?_
    refine Nat.le_trans (Nat.le_of_eq ?_) (process_rx_attempts _)
    exact ((rate_limited_rx_single_frame_ghost g).2.2.2.1).symm
  · split
    · exact Nat.lt_of_lt_of_le (Nat.lt_succ_self _)
        (Nat.le_of_eq ((rate_limited_rx_single_frame_ghost g).2.2.2.1).symm)
    · exact Nat.lt_of_lt_of_le (Nat.lt_succ_self _)
        (Nat.le_of_eq ((rate_limited_rx_single_frame_ghost g).2.2.2.1).symm)

end RxAttemptLemmas

/-- The RX chain walk on an all-writable in-bounds chain whose total
capacity is below `bytes_read`: every descriptor is filled completely, the
chain is exhausted, and `rx_fails` is bumped once. -/
theorem rx_chain_write_short (frame_buf : Nat → Nat) (bytes_read : Nat) :
    ∀ (descs : List Desc) (wc : Nat) (mem : GuestMemory),
    (∀ d ∈ descs, d.writeOnly = true) →
    (∀ d ∈ descs, d.addr + d.len ≤ mem.size ∧ 0 < d.len) →
    wc + (descs.map (fun d => d.len)).sum < bytes_read →
    (rx_chain_write frame_buf bytes_read descs wc mem).1 =
      wc + (descs.map (fun d => d.len)).sum ∧
    (rx_chain_write frame_buf bytes_read descs wc mem).2.2 = 1
  | [], wc, mem => by
      intro _ _ _
      simp [rx_chain_write]
  | d :: rest, wc, mem => by
      intro hwo hmem hlt
      simp only [List.map_cons, List.sum_cons] at hlt ⊢
      have hdwo : d.writeOnly = true := hwo d (List.mem_cons_self d rest)
      have hdm := hmem d (List.mem_cons_self d rest)
      unfold rx_chain_write
      rw [if_pos hdwo]
      unfold GuestMemory.write_slice_at_addr
      dsimp only
      have haddr : ¬ mem.size ≤ d.addr := by omega
      rw [if_neg haddr]
      dsimp only
      have hn : min ((List.range (min (wc + d.len) bytes_read - wc)).map
          (fun j => frame_buf (wc + j))).length (mem.size - d.addr) = d.len := by
        rw [List.length_map, List.length_range]
        omega
      rw [hn]
      have hc : ¬ bytes_read ≤ wc + d.len := by omega
      rw [if_neg hc]
      have IH := rx_chain_write_short frame_buf bytes_read rest (wc + d.len)
        ({ mem with data := fun i => if d.addr ≤ i ∧ i < d.addr + d.len
            then ((List.range (min (wc + d.len) bytes_read - wc)).map
              (fun j => frame_buf (wc + j))).getD (i - d.addr) 0
            else mem.data i })
        (fun d' hd' => hwo d' (List.mem_cons_of_mem d hd'))
        (fun d' hd' => hmem d' (List.mem_cons_of_mem d hd'))
        (by omega)
      refine ⟨?_, IH.2⟩
      rw [IH.1]
      omega

/-- C2 (amended): for a staged frame and an available all-writable RX
chain whose capacity is smaller than `bytes_read`, `rx_single_frame`
marks the chain head used with the partial write count, increments
`rx_fails`, and returns false — but the frame is NOT lost: the caller
keeps it staged (`deferred_frame`), and while the flag is set every
`resume_rx` makes a further delivery attempt for it. -/
theorem claim_C2 (h : NetHandler) (c : DescChain)
    (hq : h.rx.queue.chains.get? h.rx.queue.pos = some c)
    (hwo : ∀ d ∈ c.descs, d.writeOnly = true)
    (hmem : ∀ d ∈ c.descs, d.addr + d.len ≤ h.mem.size ∧ 0 < d.len)
    (hshort : (c.descs.map (fun d => d.len)).sum < h.rx.bytes_read) :
    (rx_single_frame h).1 = false ∧
    (rx_single_frame h).2.rx.queue.used =
      h.rx.queue.used ++ [(c.headIndex, (c.descs.map (fun d => d.len)).sum)] ∧
    (rx_single_frame h).2.metrics.rx_fails = h.metrics.rx_fails + 1 ∧
    (∀ g : NetHandler, g.rx.deferred_frame = true →
      g.deliveryAttempts < (resume_rx g).deliveryAttempts) := by
  have hnext : h.rx.queue.next =
      some (c, { h.rx.queue with pos := h.rx.queue.pos + 1 }) := by
    unfold VQueue.next
    rw [hq]
  have hwalk := rx_chain_write_short h.rx.frame_buf h.rx.bytes_read c.descs 0 h.mem
    hwo hmem (by omega)
  unfold rx_single_frame
  rw [hnext]
  dsimp only
  have hfalse : decide (h.rx.bytes_read ≤
      (rx_chain_write h.rx.frame_buf h.rx.bytes_read c.descs 0 h.mem).1) = false := by
    apply decide_eq_false
    rw [hwalk.1]
    omega
  refine ⟨hfalse, ?_, ?_, fun g hg => resume_rx_attempts g hg⟩
  · dsimp only [VQueue.add_used]
    rw [hwalk.1, Nat.zero_add]
  · have hnotle : ¬ h.rx.bytes_read ≤
        (rx_chain_write h.rx.frame_buf h.rx.bytes_read c.descs 0 h.mem).1 := by
      rw [hwalk.1]
      omega
    rw [if_neg hnotle, hwalk.2]

/-- Witness for C2 at a concrete input: the 3-byte chain against the
5-byte staged frame. -/
theorem claim_C2_witness :
    (rx_single_frame hC2w).1 = false ∧
    (rx_single_frame hC2w).2.rx.queue.used = [(0, 3)] ∧
    (rx_single_frame hC2w).2.metrics.rx_fails = 1 ∧
    hC4w.deliveryAttempts < (resume_rx hC4w).deliveryAttempts := by
  have hmain := claim_C2 hC2w chainShort rfl (by decide) (by decide) (by decide)
  refine ⟨hmain.1, ?_, ?_, hmain.2.2.2 hC4w rfl⟩
  · rw [hmain.2.1]
    decide
  · rw [hmain.2.2.1]
    decide

/-- C2 counterexample to the "frame is lost and not retried" part: after
the short-chain failure the handler defers the frame (used ring holds the
partial entry `(0, 3)`, `rx_fails` = 1, one delivery attempt), and the
very next RX_QUEUE event delivers the SAME staged 5-byte frame in full to
the next chain — a second delivery attempt and a used entry `(1, 5)`. -/
theorem claim_C2_counterexample :
    (run_events [NetEvent.rxTap] hC2).rx.deferred_frame = true ∧
    (run_events [NetEvent.rxTap] hC2).metrics.rx_fails = 1 ∧
    (run_events [NetEvent.rxTap] hC2).rx.queue.used = [(0, 3)] ∧
    (run_events [NetEvent.rxTap] hC2).deliveryAttempts = 1 ∧
    (run_events [NetEvent.rxTap, NetEvent.rxQueue] hC2).rx.queue.used =
      [(0, 3), (1, 5)] ∧
    (run_events [NetEvent.rxTap, NetEvent.rxQueue] hC2).deliveryAttempts = 2 := by
  exact ⟨rfl, rfl, rfl, rfl, rfl, rfl⟩

section FlagLemmas

theorem FlagsExt.refl' (g : NetHandler) : FlagsExt g g :=
  ⟨[], by simp, by simp⟩

theorem FlagsExt.of_eq {g g' : NetHandler} (h : g'.tapFlags = g.tapFlags) :
    FlagsExt g g' :=
  ⟨[], by simp [h], by simp⟩

theorem FlagsExt.trans {a b c : NetHandler} (h1 : FlagsExt a b)
    (h2 : FlagsExt b c) : FlagsExt a c := by
  obtain ⟨l1, e1, a1⟩ := h1
  obtain ⟨l2, e2, a2⟩ := h2
  refine ⟨l1 ++ l2, by rw [e2, e1, List.append_assoc], ?_⟩
  intro x hx
  rcases List.mem_append.mp hx with hx1 | hx2
  · exact a1 x hx1
  · exact a2 x hx2

/-- A read from the sources while no frame is deferred records only clear
flags. -/
theorem read_from_mmds_or_tap_flags (g : NetHandler)
    (hdef : g.rx.deferred_frame = false) :
    FlagsExt g (read_from_mmds_or_tap g).2 := by
  obtain ⟨l, hl, hall⟩ := (read_from_mmds_or_tap_ghost g).2.2.2.2.2.2
  exact ⟨l, hl, fun b hb => by rw [hall b hb, hdef]⟩

/-- The drain loop started with `deferred_frame` clear performs every TAP
read with the flag clear. -/
theorem process_rx_loop_flags : ∀ (fuel : Nat) (g : NetHandler),
    g.rx.deferred_frame = false → FlagsExt g (process_rx_loop fuel g)
  | 0, g => fun _ => FlagsExt.refl' g
  | Nat.succ fuel, g => by
      intro hdef
      have hgr := read_from_mmds_or_tap_ghost g
      have hfl0 := read_from_mmds_or_tap_flags g hdef
      unfold process_rx_loop
      cases hr : read_from_mmds_or_tap g with
      | mk res g1 =>
          rw [hr] at hgr hfl0
          have hdef1 : g1.rx.deferred_frame = false := by rw [hgr.1, hdef]
          cases res with
          | ok count =>
              dsimp only
              generalize hX :
                ({ g1 with rx := { g1.rx with bytes_read := count } } : NetHandler) = g2
              have hdef2 : g2.rx.deferred_frame = false := by
                rw [← hX]; exact hdef1
              have hfl2 : FlagsExt g g2 :=
                FlagsExt.trans hfl0 (FlagsExt.of_eq (by rw [← hX]))
              split
              · refine FlagsExt.trans hfl2 (FlagsExt.trans
                  (FlagsExt.of_eq (rate_limited_rx_single_frame_ghost g2).2.1)
                  (process_rx_loop_flags fuel _ ?_))
                rw [(rate_limited_rx_single_frame_ghost g2).1]
                exact hdef2
              · exact FlagsExt.trans hfl2
                  (FlagsExt.of_eq (rate_limited_rx_single_frame_ghost g2).2.1)
          | error eagain =>
              dsimp only
              split
              · exact hfl0
              · exact hfl0

/-- `process_rx` started with `deferred_frame` clear performs every TAP
read with the flag clear. -/
theorem process_rx_flags (g : NetHandler) (hdef : g.rx.deferred_frame = false) :
    FlagsExt g (process_rx g) := by
  have hl := process_rx_loop_flags (rx_src_fuel g) g hdef
  unfold process_rx
  dsimp only
  split
  · exact hl
  · exact hl

/-- `resume_rx` performs every TAP read with the deferred flag clear. -/
theorem resume_rx_flags (g : NetHandler) : FlagsExt g (resume_rx g) := by
  unfold resume_rx
  by_cases hdef : g.rx.deferred_frame = true
  · rw [if_pos hdef]
    dsimp only
    split
    · exact FlagsExt.trans
        (FlagsExt.of_eq (rate_limited_rx_single_frame_ghost g).2.1)
        (process_rx_flags _ rfl)
    · split
      · exact FlagsExt.of_eq (rate_limited_rx_single_frame_ghost g).2.1
      · exact FlagsExt.of_eq (rate_limited_rx_single_frame_ghost g).2.1
  · rw [if_neg hdef]
    exact FlagsExt.refl' g

/-- `write_to_mmds_or_tap` records no TAP-read flags. -/
theorem write_to_mmds_or_tap_tapFlags (g : NetHandler) (f : List Nat) :
    (write_to_mmds_or_tap g f).2.tapFlags = g.tapFlags := by
  unfold write_to_mmds_or_tap
  cases g.mmds_ns with
  | none => rfl
  | some ns =>
      dsimp only
      by_cases ha : ns.accepts (f.drop vnet_hdr_len) = true
      · rw [if_pos ha]
      · rw [if_neg ha]
        rfl

/-- The TX iteration never touches the RX state or the TAP-read trace,
and it only requests the MMDS-triggered RX re-entry when no RX frame is
deferred. -/
theorem process_tx_loop_rx_flags : ∀ (fuel : Nat) (h : NetHandler),
    (process_tx_loop fuel h).h.rx = h.rx ∧
    (process_tx_loop fuel h).h.tapFlags = h.tapFlags ∧
    ((process_tx_loop fuel h).prm = true → h.rx.deferred_frame = false)
  | 0, h => ⟨rfl, rfl, fun hh => absurd hh (by simp [process_tx_loop])⟩
  | Nat.succ fuel, h => by
      unfold process_tx_loop
      cases hnext : h.tx.queue.next with
      | none => exact ⟨rfl, rfl, fun hh => absurd hh (by simp)⟩
      | some pr =>
          obtain ⟨chain, q1⟩ := pr
          dsimp only
          split
          · split
            · refine ⟨?_, ?_, ?_⟩
              · dsimp only
                rw [(process_tx_loop_rx_flags fuel _).1, write_to_mmds_or_tap_rx]
              · dsimp only
                rw [(process_tx_loop_rx_flags fuel _).2.1, write_to_mmds_or_tap_tapFlags]
              · dsimp only
                intro hh
                rcases (Bool.or_eq_true _ _).mp hh with hfst | hrec
                · obtain ⟨_, hnd⟩ := (Bool.and_eq_true _ _).mp hfst
                  have h2 := (Bool.not_eq_true' _).mp hnd
                  rw [write_to_mmds_or_tap_rx] at h2
                  exact h2
                · have h2 := (process_tx_loop_rx_flags fuel _).2.2 hrec
                  rw [write_to_mmds_or_tap_rx] at h2
                  exact h2
            · exact ⟨rfl, rfl, fun hh => absurd hh (by simp)⟩
          · exact ⟨rfl, rfl, fun hh => absurd hh (by simp)⟩

/-- `process_tx` performs every TAP read with the deferred flag clear. -/
theorem process_tx_flags (h : NetHandler) : FlagsExt h (process_tx h).1 := by
  have hl := process_tx_loop_rx_flags (h.tx.queue.chains.length + 1) h
  unfold process_tx
  dsimp only
  by_cases hrl : (process_tx_loop (h.tx.queue.chains.length + 1) h).rate_limited = true
  · rw [if_pos hrl]
    by_cases hprm : (process_tx_loop (h.tx.queue.chains.length + 1) h).prm = true
    · rw [if_pos hprm]
      refine FlagsExt.trans (FlagsExt.of_eq hl.2.1) (process_rx_flags _ ?_)
      show (process_tx_loop (h.tx.queue.chains.length + 1) h).h.rx.deferred_frame = false
      rw [hl.1]
      exact hl.2.2 hprm
    · rw [if_neg hprm]
      exact FlagsExt.of_eq hl.2.1
  · rw [if_neg hrl]
    by_cases hprm : (process_tx_loop (h.tx.queue.chains.length + 1) h).prm = true
    · rw [if_pos hprm]
      refine FlagsExt.trans (FlagsExt.of_eq hl.2.1) (process_rx_flags _ ?_)
      show (process_tx_loop (h.tx.queue.chains.length + 1) h).h.rx.deferred_frame = false
      rw [hl.1]
      exact hl.2.2 hprm
    · rw [if_neg hprm]
      exact FlagsExt.of_eq hl.2.1

/-- Every event handler performs every TAP read with the deferred flag
clear. -/
theorem handle_event_flags (ev : NetEvent) (g : NetHandler) :
    FlagsExt g (handle_event ev g) := by
  cases ev with
  | rxTap =>
      unfold handle_event
      dsimp only
      by_cases hb : g.rx.rate_limiter.is_blocked = true
      · rw [if_pos hb]
        exact FlagsExt.refl' g
      · rw [if_neg hb]
        by_cases hdef : g.rx.deferred_frame = true
        · rw [if_pos hdef]
          split
          · exact FlagsExt.trans
              (FlagsExt.of_eq (rate_limited_rx_single_frame_ghost g).2.1)
              (process_rx_flags _ rfl)
          · split
            · exact FlagsExt.of_eq (rate_limited_rx_single_frame_ghost g).2.1
            · exact FlagsExt.of_eq (rate_limited_rx_single_frame_ghost g).2.1
        · rw [if_neg hdef]
          exact process_rx_flags g ((Bool.not_eq_true _).mp hdef)
  | rxQueue =>
      unfold handle_event
      dsimp only
      by_cases hb : g.rx.rate_limiter.is_blocked = true
      · rw [if_pos hb]
        exact FlagsExt.refl' g
      · rw [if_neg hb]
        exact resume_rx_flags g
  | txQueue =>
      unfold handle_event
      dsimp only
      by_cases hb : g.tx.rate_limiter.is_blocked = true
      · rw [if_pos hb]
        exact FlagsExt.refl' g
      · rw [if_neg hb]
        exact process_tx_flags g
  | rxRateLimiter =>
      unfold handle_event
      dsimp only
      split
      · exact FlagsExt.trans (FlagsExt.of_eq rfl) (resume_rx_flags _)
      · exact FlagsExt.refl' _
  | txRateLimiter =>
      unfold handle_event
      dsimp only
      split
      · exact FlagsExt.trans (FlagsExt.of_eq rfl) (process_tx_flags _)
      · exact FlagsExt.refl' _

/-- Sequences of events only ever read TAP with the deferred flag clear. -/
theorem run_events_flags : ∀ (evs : List NetEvent) (g : NetHandler),
    FlagsExt g (run_events evs g)
  | [], g => FlagsExt.refl' g
  | ev :: evs, g => by
      have h1 := handle_event_flags ev g
      have h2 := run_events_flags evs (handle_event ev g)
      unfold run_events at h2 ⊢
      rw [List.foldl_cons]
      exact FlagsExt.trans h1 h2

end FlagLemmas

/-- C4: across every sequence of `handle_event` invocations, no TAP read
is performed while `deferred_frame` is set — every flag recorded at a TAP
read is clear, so a read can only happen after the deferred frame has been
delivered and the flag cleared; moreover, if the deferred-frame delivery
attempted by the RX_TAP handler fails, the handler returns without
reading TAP at all (the trace is unchanged). -/
theorem claim_C4 (h : NetHandler) (evs : List NetEvent) :
    (∃ l, (run_events evs h).tapFlags = h.tapFlags ++ l ∧ ∀ b ∈ l, b = false) ∧
    (h.rx.deferred_frame = true →
      (rate_limited_rx_single_frame h).1 = false →
      (handle_event NetEvent.rxTap h).tapFlags = h.tapFlags) := by
  constructor
  · exact run_events_flags evs h
  · intro hdef hfail
    unfold handle_event
    dsimp only
    by_cases hb : h.rx.rate_limiter.is_blocked = true
    · rw [if_pos hb]
    · rw [if_neg hb, if_pos hdef]
      have hne : ¬ (rate_limited_rx_single_frame h).1 = true := by
        rw [hfail]
        simp
      rw [if_neg hne]
      split
      · exact (rate_limited_rx_single_frame_ghost h).2.1
      · exact (rate_limited_rx_single_frame_ghost h).2.1

/-- Witness for C4 at a concrete input: a deferred frame whose delivery
fails (no Ops budget) while TAP has a frame available — the handler
returns without reading it. -/
theorem claim_C4_witness :
    hC4w.rx.deferred_frame = true ∧
    (rate_limited_rx_single_frame hC4w).1 = false ∧
    (handle_event NetEvent.rxTap hC4w).tapFlags = hC4w.tapFlags ∧
    (∃ l, (run_events [NetEvent.rxTap] hC4w).tapFlags = hC4w.tapFlags ++ l ∧
      ∀ b ∈ l, b = false) := by
  refine ⟨rfl, rfl, ?_, ?_⟩
  · exact (claim_C4 hC4w [NetEvent.rxTap]).2 rfl rfl
  · exact (claim_C4 hC4w [NetEvent.rxTap]).1
